import Mathlib

/-!
Shallow embedding of `domain_check.py`, a domain-availability checker that
dispatches each (word, tld) lookup to an RDAP (structured, HTTP-style)
endpoint or a WHOIS (plain-text, socket) fallback, classifies the reply
into a verdict, tallies verdicts over the cartesian product of a word list
and a TLD list, and writes a CSV record of the results.

Network effects are modelled by an explicit oracle (`Network`) passed to
the functions that the Python code lets perform I/O; file-system effects
are modelled by oracles mapping paths to optional contents.  Python
strings are Lean `String`s; `str.lower()` is modelled per-character by
`Char.toLower` (ASCII case mapping, which is what the inputs here use);
`pat in text` is substring containment on the underlying character lists.
-/

namespace DomainCheck

/-- Result of one `session.get(url, timeout=8)` call: an HTTP response
with a status code, a `requests.exceptions.Timeout`, or any other
`requests.exceptions.RequestException`. -/
inductive HttpResult where
  | status (code : Nat)
  | timeout
  | requestError
deriving DecidableEq, Repr

/-- Result of one WHOIS socket exchange (connect, send, read until close):
the decoded response body, or any exception raised during
connect/send/receive. -/
inductive TcpResult where
  | response (body : String)
  | exn
deriving DecidableEq, Repr

/-- The network oracle: `http url` is the outcome of `session.get(url)`,
`tcp domain host port` the outcome of the WHOIS exchange for `domain`
against `(host, port)`. -/
structure Network where
  http : String → HttpResult
  tcp : String → String → Nat → TcpResult

/-- Verdict strings produced by `check_domain` / `check_whois`:
"available", "taken", "unknown" / "unknown(code)", "timeout", "error",
"no-server".  The WHOIS path produces `unknown none`; the RDAP path
produces `unknown (some code)`. -/
inductive Verdict where
  | available
  | taken
  | unknown (code : Option Nat)
  | timeout
  | error
  | noServer
deriving DecidableEq, Repr

/-- `TLDS = ["com", "ai", "app", "io", "co"]` (line 28). -/
def TLDS : List String := ["com", "ai", "app", "io", "co"]

/-- `RDAP_SERVERS` dict (lines 32-40), as an association list. -/
def RDAP_SERVERS : List (String × String) :=
  [("com", "https://rdap.verisign.com/com/v1/domain/"),
   ("net", "https://rdap.verisign.com/net/v1/domain/"),
   ("org", "https://rdap.publicinterestregistry.org/rdap/domain/"),
   ("ai", "https://rdap.identitydigital.services/rdap/domain/"),
   ("app", "https://pubapi.registry.google/rdap/domain/"),
   ("dev", "https://pubapi.registry.google/rdap/domain/"),
   ("tech", "https://rdap.centralnic.com/tech/domain/")]

/-- `WHOIS_SERVERS` dict (lines 43-47): TLD to (host, port). -/
def WHOIS_SERVERS : List (String × (String × Nat)) :=
  [("io", ("whois.nic.io", 43)),
   ("co", ("whois.nic.co", 43)),
   ("me", ("whois.nic.me", 43))]

/-- Python `str.lower()` restricted to ASCII case mapping, applied
per character. -/
def pyLower (s : String) : String := ⟨s.data.map Char.toLower⟩

/-- Python `pat in s` substring test. -/
def strContains (s pat : String) : Bool := decide (pat.data <:+: s.data)

/-- Availability keywords tested first by `check_whois` (line 77). -/
def hasAvailKeyword (t : String) : Bool :=
  strContains t "no match" || strContains t "not found" || strContains t "no data found"

/-- Registration keywords tested second by `check_whois` (line 79). -/
def hasTakenKeyword (t : String) : Bool :=
  strContains t "domain name:" || strContains t "registrar:" || strContains t "registered"

/-- Classification of a decoded WHOIS response body (lines 76-81):
lowercase, then the two keyword tests in order, else "unknown". -/
def classifyWhois (body : String) : Verdict :=
  let text := pyLower body
  if hasAvailKeyword text then .available
  else if hasTakenKeyword text then .taken
  else .unknown none

/-- `check_whois(domain, host, port)` (lines 67-83): one socket exchange;
any exception inside the `try` yields "error", otherwise the body is
classified by keywords. -/
def check_whois (domain host : String) (port : Nat) (net : Network) : Verdict :=
  match net.tcp domain host port with
  | .response body => classifyWhois body
  | .exn => .error

/-- The WHOIS-fallback tail of `check_domain` (lines 112-116): look up
`WHOIS_SERVERS`, call `check_whois`, else "no-server". -/
def checkFallback (domain tld : String) (net : Network) : Verdict :=
  match WHOIS_SERVERS.lookup tld with
  | some hp => check_whois domain hp.1 hp.2 net
  | none => .noServer

/-- `check_domain(word, tld, session)` (lines 86-116).  `if rdap_base:` is
Python truthiness, so an empty-string entry would fall through, matching
the `isEmpty` guard. -/
def check_domain (word tld : String) (net : Network) : Verdict :=
  let domain := word ++ "." ++ tld
  match RDAP_SERVERS.lookup tld with
  | some rdap_base =>
    if rdap_base.isEmpty then checkFallback domain tld net
    else
      match net.http (rdap_base ++ domain) with
      | .status code =>
        if code = 404 then .available
        else if code = 200 then .taken
        else .unknown (some code)
      | .timeout => .timeout
      | .requestError => .error
  | none => checkFallback domain tld net

/-- Protocol binding for a TLD: structured (RDAP base URL) or plain
(WHOIS host and port). -/
inductive Binding where
  | rdap (base : String)
  | whois (host : String) (port : Nat)
deriving DecidableEq, Repr

/-- The `resolve` step of the dispatch (lines 95, 112): the RDAP table is
consulted first (with Python truthiness on the entry), the WHOIS table
only when RDAP yields nothing. -/
def resolve (tld : String) : Option Binding :=
  match RDAP_SERVERS.lookup tld with
  | some rdap_base =>
    if rdap_base.isEmpty then
      match WHOIS_SERVERS.lookup tld with
      | some hp => some (.whois hp.1 hp.2)
      | none => none
    else some (.rdap rdap_base)
  | none =>
    match WHOIS_SERVERS.lookup tld with
    | some hp => some (.whois hp.1 hp.2)
    | none => none

/-- Run tally (lines 120-128): the three bucket lists and the count of
checks performed. -/
structure Tally where
  available : List String
  taken : List String
  unknown : List String
  checked : Nat
deriving DecidableEq, Repr

/-- One iteration of the nested loop in `run` (lines 134-156): check the
pair, bump `checked`, and append the domain to the bucket selected by the
verdict — "available" and "taken" to their buckets, everything else to
`unknown`. -/
def runStep (net : Network) (t : Tally) (p : String × String) : Tally :=
  let domain := p.1 ++ "." ++ p.2
  match check_domain p.1 p.2 net with
  | .available => { t with available := t.available ++ [domain], checked := t.checked + 1 }
  | .taken => { t with taken := t.taken ++ [domain], checked := t.checked + 1 }
  | _ => { t with unknown := t.unknown ++ [domain], checked := t.checked + 1 }

/-- The word-major, tld-minor pair order of the nested `for` loops
(lines 134-135). -/
def runPairs (words tlds : List String) : List (String × String) :=
  words.flatMap fun w => tlds.map fun t => (w, t)

/-- `run(words, tlds)` (lines 119-163), restricted to its observable
state: fold the per-pair step over all pairs starting from the empty
tally. -/
def run (words tlds : List String) (net : Network) : Tally :=
  (runPairs words tlds).foldl (runStep net) ⟨[], [], [], 0⟩

/-- The CSV-saving step of `run` (lines 171-182), called with
`save_csv=True`: `none` when no file is written (no available and no
unknown results), otherwise the list of CSV rows — one header row, then
one row per domain in bucket order, every non-available non-taken verdict
recorded as "unknown". -/
def saveCsv (t : Tally) : Option (List (List String)) :=
  if t.available.isEmpty && t.unknown.isEmpty then none
  else
    some ([["domain", "status"]]
      ++ t.available.map (fun d => [d, "available"])
      ++ t.taken.map (fun d => [d, "taken"])
      ++ t.unknown.map (fun d => [d, "unknown"]))

/-- `generate_combinations(prefixes, roots)` (lines 62-63):
`itertools.product` in prefix-major order, plain concatenation. -/
def generate_combinations (prefixes roots : List String) : List String :=
  prefixes.flatMap fun p => roots.map fun r => p ++ r

/-- Outcome of parsing the structured words file: `json.load` succeeded on
a top-level object (carrying the `.get` results for "words", "prefixes",
"roots", each defaulting to `[]`), succeeded on a non-object (so `.get`
raises `AttributeError`), or raised `JSONDecodeError`. -/
inductive JsonDoc where
  | obj (words prefixes roots : List String)
  | nonObj
  | malformed
deriving DecidableEq, Repr

/-- Python exceptions relevant to the load path. -/
inductive PyError where
  | fileNotFound
  | jsonDecodeError
  | attributeError
deriving DecidableEq, Repr

/-- `load_words_file(path)` (lines 56-60) over the parse outcome of the
file at `path` (`none` = file missing): `open` raises `FileNotFoundError`,
`json.load` raises `JSONDecodeError` on malformed input, `.get` raises
`AttributeError` on a non-object document. -/
def load_words_file (file : Option JsonDoc) :
    Except PyError (List String × List String × List String) :=
  match file with
  | none => .error .fileNotFound
  | some .malformed => .error .jsonDecodeError
  | some .nonObj => .error .attributeError
  | some (.obj w p r) => .ok (w, p, r)

/-- `WORDS_FILE` (line 54): the default structured words file, a path next
to the script; modelled by its file name. -/
def WORDS_FILE : String := "domain_words.json"

/-- Python `s.startswith(pat)`, on the character sequences. -/
def pyStartsWith (s pat : String) : Bool := pat.data.isPrefixOf s.data

/-- Python slicing `s[n:]`, on the character sequence. -/
def pyDrop (s : String) (n : Nat) : String := ⟨s.data.drop n⟩

/-- Splitting a character sequence at every separator occurrence, the
behaviour of Python `str.split(sep)` for a one-character separator:
`""` gives `[""]`, adjacent separators give empty fields. -/
def splitChar (sep : Char) : List Char → List (List Char)
  | [] => [[]]
  | c :: rest =>
    match splitChar sep rest with
    | [] => [[]]
    | g :: gs => if c = sep then [] :: g :: gs else (c :: g) :: gs

/-- Python `s.split(",")`. -/
def pySplitComma (s : String) : List String := (splitChar ',' s.data).map fun cs => ⟨cs⟩

/-- Python `s.strip()`: remove leading and trailing whitespace. -/
def pyStrip (s : String) : String :=
  ⟨((s.data.dropWhile Char.isWhitespace).reverse.dropWhile Char.isWhitespace).reverse⟩

/-- The `--words=` scan (lines 189-192): the last `--words=` argument
wins, default `WORDS_FILE`; `arg.split("=", 1)[1]` is everything after
the 8-character flag. -/
def resolveWordsFile (argv : List String) : String :=
  argv.foldl (fun acc arg => if pyStartsWith arg "--words=" then pyDrop arg 8 else acc)
    WORDS_FILE

/-- The flag/positional scan (lines 207-215): `--tlds=` replaces the TLD
list (comma-separated), `--words=` is skipped, any other `--` flag is
skipped, and the last remaining argument becomes the positional file
path. -/
def parseTldsFile (argv : List String) : List String × Option String :=
  argv.foldl
    (fun acc arg =>
      if pyStartsWith arg "--tlds=" then (pySplitComma (pyDrop arg 7), acc.2)
      else if pyStartsWith arg "--words=" then acc
      else if pyStartsWith arg "--" then acc
      else (acc.1, some arg))
    (TLDS, none)

/-- The plain-file comprehension (line 221): keep lines that are nonblank
after stripping, then strip and lowercase each. -/
def processPlainLines (lines : List String) : List String :=
  (lines.filter fun l => !(pyStrip l).data.isEmpty).map fun l => pyLower (pyStrip l)

/-- Membership-based first-occurrence deduplication, the behaviour of
`dict.fromkeys` (line 229). -/
def dedupFirstAux : List String → List String → List String
  | [], _ => []
  | w :: ws, seen =>
    if w ∈ seen then dedupFirstAux ws seen else w :: dedupFirstAux ws (w :: seen)

/-- `list(dict.fromkeys(...))`: deduplicate keeping first occurrences. -/
def dedupFirst (ws : List String) : List String := dedupFirstAux ws []

/-- Line 229: `words = list(dict.fromkeys(w.lower() for w in words))`. -/
def normalizeWords (ws : List String) : List String := dedupFirst (ws.map pyLower)

/-- Where the `__main__` block ends up (lines 188-231): a caught
`FileNotFoundError` (message printed, `sys.exit(1)`), an uncaught
exception, or the call to `run` with the final word and TLD lists. -/
inductive MainOutcome where
  | exitNonzero (msg : String)
  | unhandled (e : PyError)
  | proceed (words tlds : List String)
deriving DecidableEq, Repr

/-- The `__main__` block (lines 188-231) over file-system oracles:
`jsonFS` gives the parse outcome of the structured file at a path,
`textFS` the lines of a plain text file at a path (`none` = missing).
Only `FileNotFoundError` is caught; `if file_path:` is Python truthiness,
so an empty positional string is ignored. -/
def mainFlow (argv : List String) (jsonFS : String → Option JsonDoc)
    (textFS : String → Option (List String)) : MainOutcome :=
  let words_file := resolveWordsFile argv
  match load_words_file (jsonFS words_file) with
  | .error .fileNotFound => .exitNonzero ("Words file not found: " ++ words_file)
  | .error e => .unhandled e
  | .ok (base_words, prefixes, roots) =>
    let words := base_words ++ generate_combinations prefixes roots
    let parsed := parseTldsFile argv
    match parsed.2 with
    | some p =>
      if p.data.isEmpty then .proceed (normalizeWords words) parsed.1
      else
        match textFS p with
        | none => .exitNonzero ("File not found: " ++ p)
        | some lines => .proceed (normalizeWords (processPlainLines lines)) parsed.1
    | none => .proceed (normalizeWords words) parsed.1

/-! Helper lemmas -/

theorem lookup_val_prop {β : Type} (P : β → Prop) :
    ∀ (l : List (String × β)), (∀ p ∈ l, P p.2) → ∀ k v, l.lookup k = some v → P v := by
  intro l
  induction l with
  | nil => intro _ k v h; simp [List.lookup] at h
  | cons hd tl ih =>
    obtain ⟨a, b⟩ := hd
    intro hall k v h
    rw [List.lookup] at h
    cases hk : (k == a) with
    | true =>
      rw [hk] at h
      cases h
      exact hall (a, b) (List.mem_cons_self _ _)
    | false =>
      rw [hk] at h
      exact ih (fun p hp => hall p (List.mem_cons_of_mem _ hp)) k v h

theorem rdap_base_not_empty (tld base : String)
    (h : RDAP_SERVERS.lookup tld = some base) : base.isEmpty = false :=
  lookup_val_prop (fun v => v.isEmpty = false) RDAP_SERVERS (by decide) tld base h

theorem toNat_ofNat_valid {n : Nat} (h : n.isValidChar) : (Char.ofNat n).toNat = n := by
  rw [Char.ofNat, dif_pos h]
  rfl

theorem char_toLower_toLower (c : Char) : c.toLower.toLower = c.toLower := by
  by_cases h : c.toNat ≥ 65 ∧ c.toNat ≤ 90
  · have h1 : c.toLower = Char.ofNat (c.toNat + 32) := by
      rw [Char.toLower, if_pos h]
    have hv : (c.toNat + 32).isValidChar := Or.inl (by omega)
    have ht : (Char.ofNat (c.toNat + 32)).toNat = c.toNat + 32 := toNat_ofNat_valid hv
    rw [h1, Char.toLower, ht, if_neg (by omega)]
  · have h1 : c.toLower = c := by rw [Char.toLower, if_neg h]
    rw [h1, h1]

theorem pyLower_pyLower (s : String) : pyLower (pyLower s) = pyLower s := by
  show String.mk ((s.data.map Char.toLower).map Char.toLower)
      = String.mk (s.data.map Char.toLower)
  rw [List.map_map]
  exact congrArg String.mk (List.map_congr_left fun c _ => char_toLower_toLower c)

theorem dedupFirstAux_mem : ∀ ws seen x, x ∈ dedupFirstAux ws seen → x ∈ ws := by
  intro ws
  induction ws with
  | nil => intro seen x h; simp [dedupFirstAux] at h
  | cons w ws ih =>
    intro seen x h
    rw [dedupFirstAux] at h
    by_cases hw : w ∈ seen
    · rw [if_pos hw] at h
      exact List.mem_cons_of_mem _ (ih _ _ h)
    · rw [if_neg hw] at h
      rcases List.mem_cons.mp h with h1 | h2
      · exact h1 ▸ List.mem_cons_self _ _
      · exact List.mem_cons_of_mem _ (ih _ _ h2)

theorem dedupFirstAux_not_seen : ∀ ws seen x, x ∈ dedupFirstAux ws seen → x ∉ seen := by
  intro ws
  induction ws with
  | nil => intro seen x h; simp [dedupFirstAux] at h
  | cons w ws ih =>
    intro seen x h
    rw [dedupFirstAux] at h
    by_cases hw : w ∈ seen
    · rw [if_pos hw] at h
      exact ih _ _ h
    · rw [if_neg hw] at h
      rcases List.mem_cons.mp h with h1 | h2
      · exact h1 ▸ hw
      · intro hx
        exact ih _ _ h2 (List.mem_cons_of_mem _ hx)

theorem dedupFirstAux_nodup : ∀ ws seen, (dedupFirstAux ws seen).Nodup := by
  intro ws
  induction ws with
  | nil => intro seen; simp [dedupFirstAux]
  | cons w ws ih =>
    intro seen
    rw [dedupFirstAux]
    by_cases hw : w ∈ seen
    · rw [if_pos hw]
      exact ih _
    · rw [if_neg hw]
      refine List.nodup_cons.mpr ⟨?_, ih _⟩
      intro hmem
      exact dedupFirstAux_not_seen _ _ _ hmem (List.mem_cons_self _ _)

theorem dedupFirstAux_eq_self :
    ∀ ws seen, ws.Nodup → (∀ x ∈ ws, x ∉ seen) → dedupFirstAux ws seen = ws := by
  intro ws
  induction ws with
  | nil => intro seen _ _; rw [dedupFirstAux]
  | cons w ws ih =>
    intro seen hnd hdisj
    rw [dedupFirstAux, if_neg (hdisj w (List.mem_cons_self _ _))]
    congr 1
    refine ih _ (List.nodup_cons.mp hnd).2 ?_
    intro x hx hmem
    rcases List.mem_cons.mp hmem with h1 | h2
    · exact (List.nodup_cons.mp hnd).1 (h1 ▸ hx)
    · exact hdisj x (List.mem_cons_of_mem _ hx) h2

theorem normalizeWords_fix (ws : List String) :
    (normalizeWords ws).map pyLower = normalizeWords ws := by
  have hfix : ∀ x ∈ normalizeWords ws, pyLower x = x := by
    intro x hx
    have hxm : x ∈ ws.map pyLower := dedupFirstAux_mem _ _ _ hx
    obtain ⟨y, _, rfl⟩ := List.mem_map.mp hxm
    exact pyLower_pyLower y
  have h2 : (normalizeWords ws).map pyLower = (normalizeWords ws).map id :=
    List.map_congr_left hfix
  rw [h2, List.map_id]

theorem runStep_checked (net : Network) (t : Tally) (p : String × String) :
    (runStep net t p).checked = t.checked + 1 := by
  cases h : check_domain p.1 p.2 net <;> simp [runStep, h]

theorem runStep_buckets (net : Network) (t : Tally) (p : String × String) :
    (runStep net t p).available.length + (runStep net t p).taken.length
        + (runStep net t p).unknown.length
      = t.available.length + t.taken.length + t.unknown.length + 1 := by
  cases h : check_domain p.1 p.2 net <;> simp [runStep, h] <;> omega

theorem foldl_runStep_counts (net : Network) :
    ∀ (ps : List (String × String)) (t : Tally),
      (ps.foldl (runStep net) t).checked = t.checked + ps.length ∧
      (ps.foldl (runStep net) t).available.length + (ps.foldl (runStep net) t).taken.length
          + (ps.foldl (runStep net) t).unknown.length
        = t.available.length + t.taken.length + t.unknown.length + ps.length := by
  intro ps
  induction ps with
  | nil => intro t; simp
  | cons p ps ih =>
    intro t
    rw [List.foldl_cons]
    obtain ⟨h1, h2⟩ := ih (runStep net t p)
    have hc := runStep_checked net t p
    have hb := runStep_buckets net t p
    refine ⟨?_, ?_⟩
    · rw [h1, hc, List.length_cons]
      omega
    · rw [h2, List.length_cons]
      omega

theorem runPairs_eq_sprod (words tlds : List String) :
    runPairs words tlds = words ×ˢ tlds := rfl

theorem run_checked (words tlds : List String) (net : Network) :
    (run words tlds net).checked = words.length * tlds.length := by
  have h := (foldl_runStep_counts net (runPairs words tlds) ⟨[], [], [], 0⟩).1
  unfold run
  rw [h, runPairs_eq_sprod, List.length_product]
  simp

theorem run_partition (words tlds : List String) (net : Network) :
    (run words tlds net).available.length + (run words tlds net).taken.length
        + (run words tlds net).unknown.length = (run words tlds net).checked := by
  have h := foldl_runStep_counts net (runPairs words tlds) ⟨[], [], [], 0⟩
  unfold run
  rw [h.1, h.2]
  simp

/-! Concrete network oracles used by the witnesses -/

/-- Oracle answering every HTTP request with the given status and every
WHOIS exchange with an exception. -/
def netStatus (code : Nat) : Network :=
  ⟨fun _ => .status code, fun _ _ _ => .exn⟩

/-- Oracle answering every HTTP request with a timeout. -/
def netTimeout : Network :=
  ⟨fun _ => .timeout, fun _ _ _ => .exn⟩

/-- Oracle answering every WHOIS exchange with the given body. -/
def netWhois (body : String) : Network :=
  ⟨fun _ => .requestError, fun _ _ _ => .response body⟩

/-! Claim theorems -/

/-- C1: for every (label, tld) pair whose tld has an RDAP binding,
`check_domain` maps the single HTTP reply exactly: status 404 gives
`available`, status 200 gives `taken`, any other status gives `unknown`
carrying that code, a timeout gives `timeout`, and any other transport
failure gives `error`. -/
theorem rdap_reply_mapping (word tld base : String) (net : Network)
    (hb : RDAP_SERVERS.lookup tld = some base) :
    (∀ code, net.http (base ++ (word ++ "." ++ tld)) = .status code →
        check_domain word tld net =
          (if code = 404 then .available
           else if code = 200 then .taken
           else .unknown (some code))) ∧
    (net.http (base ++ (word ++ "." ++ tld)) = .timeout →
        check_domain word tld net = .timeout) ∧
    (net.http (base ++ (word ++ "." ++ tld)) = .requestError →
        check_domain word tld net = .error) := by
  have hne := rdap_base_not_empty tld base hb
  refine ⟨?_, ?_, ?_⟩
  · intro code hcode
    simp [check_domain, hb, hne, hcode]
  · intro hcode
    simp [check_domain, hb, hne, hcode]
  · intro hcode
    simp [check_domain, hb, hne, hcode]

/-- C1 witness: concrete 404, 503 and timeout replies for `com`. -/
theorem rdap_reply_mapping_witness :
    check_domain "neoware" "com" (netStatus 404) = .available ∧
    check_domain "neoware" "com" (netStatus 503) = .unknown (some 503) ∧
    check_domain "neoware" "com" netTimeout = .timeout := by
  refine ⟨?_, ?_, ?_⟩
  · have h := rdap_reply_mapping "neoware" "com"
      "https://rdap.verisign.com/com/v1/domain/" (netStatus 404) (by decide)
    simpa using h.1 404 rfl
  · have h := rdap_reply_mapping "neoware" "com"
      "https://rdap.verisign.com/com/v1/domain/" (netStatus 503) (by decide)
    simpa using h.1 503 rfl
  · have h := rdap_reply_mapping "neoware" "com"
      "https://rdap.verisign.com/com/v1/domain/" netTimeout (by decide)
    exact h.2.1 rfl

/-- C2: the WHOIS classification lowercases the body and tests the
availability keywords ("no match", "not found", "no data found") before
the registration keywords ("domain name:", "registrar:", "registered"),
defaulting to `unknown`; it depends only on the lowercased body (so it is
case-insensitive), and an exception during the exchange gives `error`. -/
theorem whois_reply_mapping :
    (∀ domain host port (net : Network) body,
        net.tcp domain host port = .response body →
          check_whois domain host port net =
            (if hasAvailKeyword (pyLower body) then .available
             else if hasTakenKeyword (pyLower body) then .taken
             else .unknown none)) ∧
    (∀ b1 b2, pyLower b1 = pyLower b2 → classifyWhois b1 = classifyWhois b2) ∧
    (∀ domain host port (net : Network),
        net.tcp domain host port = .exn → check_whois domain host port net = .error) := by
  refine ⟨?_, ?_, ?_⟩
  · intro domain host port net body hb
    simp [check_whois, hb, classifyWhois]
  · intro b1 b2 hb
    simp [classifyWhois, hb]
  · intro domain host port net hx
    simp [check_whois, hx]

/-- C2 witness: a "No match" body is available, a registrar body taken, a
keyword-free body unknown, an exception an error. -/
theorem whois_reply_mapping_witness :
    check_whois "x.io" "whois.nic.io" 43 (netWhois "NO MATCH for x.io") = .available ∧
    check_whois "x.io" "whois.nic.io" 43 (netWhois "Domain Name: X.IO") = .taken ∧
    check_whois "x.io" "whois.nic.io" 43 (netWhois "quota exceeded") = .unknown none ∧
    check_whois "x.io" "whois.nic.io" 43 (netStatus 0) = .error := by
  refine ⟨?_, ?_, ?_, ?_⟩
  · have h := (whois_reply_mapping).1 "x.io" "whois.nic.io" 43
      (netWhois "NO MATCH for x.io") "NO MATCH for x.io" rfl
    rw [h]
    decide
  · have h := (whois_reply_mapping).1 "x.io" "whois.nic.io" 43
      (netWhois "Domain Name: X.IO") "Domain Name: X.IO" rfl
    rw [h]
    decide
  · have h := (whois_reply_mapping).1 "x.io" "whois.nic.io" 43
      (netWhois "quota exceeded") "quota exceeded" rfl
    rw [h]
    decide
  · exact (whois_reply_mapping).2.2 "x.io" "whois.nic.io" 43 (netStatus 0) rfl

/-- C3: protocol resolution prefers the structured table — an RDAP entry
wins, the WHOIS table is consulted only when RDAP has no entry, and when
neither table has an entry `check_domain` returns `no-server` for every
label and every network oracle (so no network attempt is made). -/
theorem resolve_priority :
    (∀ tld base, RDAP_SERVERS.lookup tld = some base →
        resolve tld = some (.rdap base)) ∧
    (∀ tld hp, RDAP_SERVERS.lookup tld = none → WHOIS_SERVERS.lookup tld = some hp →
        resolve tld = some (.whois hp.1 hp.2)) ∧
    (∀ tld, RDAP_SERVERS.lookup tld = none → WHOIS_SERVERS.lookup tld = none →
        resolve tld = none) ∧
    (∀ word tld (net : Network), resolve tld = none →
        check_domain word tld net = .noServer) := by
  refine ⟨?_, ?_, ?_, ?_⟩
  · intro tld base hb
    simp [resolve, hb, rdap_base_not_empty tld base hb]
  · intro tld hp h1 h2
    simp [resolve, h1, h2]
  · intro tld h1 h2
    simp [resolve, h1, h2]
  · intro word tld net hr
    unfold resolve at hr
    cases hl : RDAP_SERVERS.lookup tld with
    | some base =>
      rw [hl] at hr
      have hne := rdap_base_not_empty tld base hl
      simp [hne] at hr
    | none =>
      rw [hl] at hr
      cases hw : WHOIS_SERVERS.lookup tld with
      | some hp => rw [hw] at hr; simp at hr
      | none => simp [check_domain, checkFallback, hl, hw]

/-- C3 witness: `com` resolves to its RDAP binding, `io` to its WHOIS
binding, `zz` to nothing, and checking any word against `zz` is
`no-server`. -/
theorem resolve_priority_witness :
    resolve "com" = some (.rdap "https://rdap.verisign.com/com/v1/domain/") ∧
    resolve "io" = some (.whois "whois.nic.io" 43) ∧
    resolve "zz" = none ∧
    check_domain "word" "zz" (netStatus 404) = .noServer :=
  ⟨(resolve_priority).1 "com" "https://rdap.verisign.com/com/v1/domain/" (by decide),
   (resolve_priority).2.1 "io" ("whois.nic.io", 43) (by decide) (by decide),
   (resolve_priority).2.2.1 "zz" (by decide) (by decide),
   (resolve_priority).2.2.2 "word" "zz" (netStatus 404)
     ((resolve_priority).2.2.1 "zz" (by decide) (by decide))⟩

/-- C4: for all inputs and all network outcomes, `check_domain` returns
exactly one verdict from the closed set — available, taken,
unknown(code), timeout, error, no-server — and, being a total function
on the modelled outcomes, never raises past its boundary. -/
theorem check_domain_closed_set (word tld : String) (net : Network) :
    check_domain word tld net = .available ∨
    check_domain word tld net = .taken ∨
    (∃ c, check_domain word tld net = .unknown c) ∨
    check_domain word tld net = .timeout ∨
    check_domain word tld net = .error ∨
    check_domain word tld net = .noServer := by
  cases h : check_domain word tld net <;> simp

/-- C5: every (label, tld) pair of a run with duplicate-free word and TLD
lists is attempted exactly once, the checked count is the product of the
list lengths, and the three tally buckets partition the checked pairs. -/
theorem run_tally_invariants (words tlds : List String) (net : Network)
    (hw : words.Nodup) (ht : tlds.Nodup) :
    (run words tlds net).checked = words.length * tlds.length ∧
    (∀ w ∈ words, ∀ t ∈ tlds, (runPairs words tlds).count (w, t) = 1) ∧
    (run words tlds net).available.length + (run words tlds net).taken.length
        + (run words tlds net).unknown.length = (run words tlds net).checked := by
  refine ⟨run_checked words tlds net, ?_, run_partition words tlds net⟩
  intro w hwm t htm
  have hconv : ∀ (l : List (String × String)) (x : String × String),
      l.count x = @List.count _ instBEqOfDecidableEq x l := by
    intro l x
    induction l with
    | nil => rfl
    | cons y ys ih =>
      rw [List.count_cons, @List.count_cons _ instBEqOfDecidableEq, ih]
      congr 1
      by_cases hxy : y = x
      · simp [hxy, instBEqOfDecidableEq]
      · simp [hxy, instBEqOfDecidableEq]
  rw [hconv, runPairs_eq_sprod]
  exact List.count_eq_one_of_mem (hw.product ht) (List.mem_product.mpr ⟨hwm, htm⟩)

/-- C5 witness: a concrete one-word, one-TLD run. -/
theorem run_tally_invariants_witness :
    (run ["neoware"] ["com"] (netStatus 404)).checked
        = (["neoware"] : List String).length * (["com"] : List String).length ∧
    (∀ w ∈ (["neoware"] : List String), ∀ t ∈ (["com"] : List String),
        (runPairs ["neoware"] ["com"]).count (w, t) = 1) ∧
    (run ["neoware"] ["com"] (netStatus 404)).available.length
        + (run ["neoware"] ["com"] (netStatus 404)).taken.length
        + (run ["neoware"] ["com"] (netStatus 404)).unknown.length
      = (run ["neoware"] ["com"] (netStatus 404)).checked :=
  run_tally_invariants ["neoware"] ["com"] (netStatus 404) (by decide) (by decide)

/-- Inversion for the nonzero-exit outcomes of the entry point: an exit
happens only for a missing structured words file or a missing nonempty
positional file after a successful structured load. -/
theorem mainFlow_exitNonzero_inv (argv : List String)
    (jsonFS : String → Option JsonDoc) (textFS : String → Option (List String))
    (msg : String) (h : mainFlow argv jsonFS textFS = .exitNonzero msg) :
    (jsonFS (resolveWordsFile argv) = none ∧
      msg = "Words file not found: " ++ resolveWordsFile argv) ∨
    (∃ w pr r p, jsonFS (resolveWordsFile argv) = some (.obj w pr r) ∧
      (parseTldsFile argv).2 = some p ∧ p.data.isEmpty = false ∧ textFS p = none ∧
      msg = "File not found: " ++ p) := by
  cases hj : jsonFS (resolveWordsFile argv) with
  | none =>
    left
    refine ⟨rfl, ?_⟩
    simp [mainFlow, load_words_file, hj] at h
    exact h.symm
  | some doc =>
    cases doc with
    | malformed => simp [mainFlow, load_words_file, hj] at h
    | nonObj => simp [mainFlow, load_words_file, hj] at h
    | obj w pr r =>
      right
      cases hp : (parseTldsFile argv).2 with
      | none => simp [mainFlow, load_words_file, hj, hp] at h
      | some p =>
        cases hpe : p.data.isEmpty with
        | true => simp [mainFlow, load_words_file, hj, hp, hpe] at h
        | false =>
          cases ht : textFS p with
          | some lines => simp [mainFlow, load_words_file, hj, hp, hpe, ht] at h
          | none =>
            refine ⟨w, pr, r, p, rfl, rfl, hpe, ht, ?_⟩
            simp [mainFlow, load_words_file, hj, hp, hpe, ht] at h
            exact h.symm

/-- Inversion for the uncaught-exception outcome of the entry point: it
happens exactly when `load_words_file` fails with an error other than
`FileNotFoundError`. -/
theorem mainFlow_unhandled_inv (argv : List String)
    (jsonFS : String → Option JsonDoc) (textFS : String → Option (List String))
    (e : PyError) (h : mainFlow argv jsonFS textFS = .unhandled e) :
    load_words_file (jsonFS (resolveWordsFile argv)) = .error e := by
  cases hj : jsonFS (resolveWordsFile argv) with
  | none => simp [mainFlow, load_words_file, hj] at h
  | some doc =>
    cases doc with
    | malformed =>
      simp [mainFlow, load_words_file, hj] at h
      simp [load_words_file, h]
    | nonObj =>
      simp [mainFlow, load_words_file, hj] at h
      simp [load_words_file, h]
    | obj w pr r =>
      cases hp : (parseTldsFile argv).2 with
      | none => simp [mainFlow, load_words_file, hj, hp] at h
      | some p =>
        cases hpe : p.data.isEmpty with
        | true => simp [mainFlow, load_words_file, hj, hp, hpe] at h
        | false =>
          cases ht : textFS p with
          | none => simp [mainFlow, load_words_file, hj, hp, hpe, ht] at h
          | some lines => simp [mainFlow, load_words_file, hj, hp, hpe, ht] at h

/-- C6: a missing resolved word-source file makes the entry point print
its message and exit nonzero without reaching `run` (so zero network
lookups happen), and the exit-nonzero and uncaught-abort outcomes arise
only from the initial load stage — never from a checked pair. -/
theorem missing_words_file_fatal :
    (∀ argv (jsonFS : String → Option JsonDoc) (textFS : String → Option (List String)),
        jsonFS (resolveWordsFile argv) = none →
          mainFlow argv jsonFS textFS =
              .exitNonzero ("Words file not found: " ++ resolveWordsFile argv) ∧
            ∀ words tlds, mainFlow argv jsonFS textFS ≠ .proceed words tlds) ∧
    (∀ argv (jsonFS : String → Option JsonDoc) (textFS : String → Option (List String)) msg,
        mainFlow argv jsonFS textFS = .exitNonzero msg →
          (jsonFS (resolveWordsFile argv) = none ∧
            msg = "Words file not found: " ++ resolveWordsFile argv) ∨
          (∃ w pr r p, jsonFS (resolveWordsFile argv) = some (.obj w pr r) ∧
            (parseTldsFile argv).2 = some p ∧ p.data.isEmpty = false ∧ textFS p = none ∧
            msg = "File not found: " ++ p)) ∧
    (∀ argv (jsonFS : String → Option JsonDoc) (textFS : String → Option (List String)) e,
        mainFlow argv jsonFS textFS = .unhandled e →
          load_words_file (jsonFS (resolveWordsFile argv)) = .error e) := by
  refine ⟨?_, mainFlow_exitNonzero_inv, mainFlow_unhandled_inv⟩
  intro argv jsonFS textFS hj
  constructor
  · simp [mainFlow, load_words_file, hj]
  · intro words tlds
    simp [mainFlow, load_words_file, hj]

/-- C6 witness: an empty file system; the default words file is missing,
so the run exits with the not-found message. -/
theorem missing_words_file_fatal_witness :
    mainFlow [] (fun _ => none) (fun _ => none) =
      .exitNonzero ("Words file not found: " ++ resolveWordsFile []) :=
  ((missing_words_file_fatal).1 [] (fun _ => none) (fun _ => none) rfl).1

/-- C7: the CSV record is produced exactly when at least one available or
unknown result exists; it then consists of the single `domain,status`
header row followed by one row per checked domain with its bucket, and
every verdict other than available and taken — error, timeout,
no-server, unknown(code) — lands in the unknown bucket. -/
theorem csv_output_spec (words tlds : List String) (net : Network) :
    ((saveCsv (run words tlds net)).isSome ↔
      ((run words tlds net).available ≠ [] ∨ (run words tlds net).unknown ≠ [])) ∧
    (∀ rows, saveCsv (run words tlds net) = some rows →
        rows = ["domain", "status"] ::
            ((run words tlds net).available.map (fun d => [d, "available"])
              ++ (run words tlds net).taken.map (fun d => [d, "taken"])
              ++ (run words tlds net).unknown.map (fun d => [d, "unknown"])) ∧
          rows.length = 1 + (run words tlds net).checked) ∧
    (∀ t0 w tl, check_domain w tl net ≠ .available → check_domain w tl net ≠ .taken →
        runStep net t0 (w, tl) =
          { t0 with unknown := t0.unknown ++ [w ++ "." ++ tl],
                    checked := t0.checked + 1 }) := by
  refine ⟨?_, ?_, ?_⟩
  · by_cases h1 : (run words tlds net).available = []
    · by_cases h2 : (run words tlds net).unknown = []
      · simp [saveCsv, h1, h2]
      · simp [saveCsv, h1, h2]
    · simp [saveCsv, h1]
  · intro rows hr
    have hp := run_partition words tlds net
    unfold saveCsv at hr
    split at hr
    · exact absurd hr (by simp)
    · have hrows := (Option.some.injEq _ _).mp hr.symm
      subst hrows
      constructor
      · simp
      · simp
        omega
  · intro t0 w tl h1 h2
    cases hc : check_domain w tl net with
    | available => exact absurd hc h1
    | taken => exact absurd hc h2
    | unknown c => simp [runStep, hc]
    | timeout => simp [runStep, hc]
    | error => simp [runStep, hc]
    | noServer => simp [runStep, hc]

/-- C7 witness: a run whose single verdict is available produces a file,
and a non-available non-taken verdict is bucketed as unknown. -/
theorem csv_output_spec_witness :
    (saveCsv (run ["neoware"] ["com"] (netStatus 404))).isSome ∧
    runStep (netStatus 503) ⟨[], [], [], 0⟩ ("neoware", "com") =
      ⟨[], [], ["neoware.com"], 1⟩ := by
  constructor
  · exact ((csv_output_spec ["neoware"] ["com"] (netStatus 404)).1).mpr
      (Or.inl (by decide))
  · exact ((csv_output_spec ["neoware"] ["com"] (netStatus 503)).2.2
      ⟨[], [], [], 0⟩ "neoware" "com" (by decide) (by decide)).trans (by decide)

/-- C8: word-list post-processing lowercases every label and then
deduplicates preserving first-seen order — `["A", "a", "b", "A"]`
becomes `["a", "b"]` — and the operation is idempotent. -/
theorem word_normalization_idem :
    normalizeWords ["A", "a", "b", "A"] = ["a", "b"] ∧
    ∀ ws, normalizeWords (normalizeWords ws) = normalizeWords ws := by
  constructor
  · decide
  · intro ws
    conv_lhs => rw [normalizeWords]
    rw [normalizeWords_fix]
    exact dedupFirstAux_eq_self _ _ (dedupFirstAux_nodup _ _) (by simp)

/-- C9: a nonempty positional word-list path replaces the entire word
list built from the structured file — the proceed outcome carries only
the normalized plain-file labels, whatever `words`, `prefixes` and
`roots` the structured file held — while the structured file is still
loaded first and its absence is still fatal. -/
theorem positional_words_replace :
    (∀ argv (jsonFS : String → Option JsonDoc) (textFS : String → Option (List String))
        p lines w pr r,
        (parseTldsFile argv).2 = some p → p.data.isEmpty = false →
        jsonFS (resolveWordsFile argv) = some (.obj w pr r) →
        textFS p = some lines →
        mainFlow argv jsonFS textFS =
          .proceed (normalizeWords (processPlainLines lines)) (parseTldsFile argv).1) ∧
    (∀ argv (jsonFS : String → Option JsonDoc) (textFS : String → Option (List String)) p,
        (parseTldsFile argv).2 = some p →
        jsonFS (resolveWordsFile argv) = none →
        mainFlow argv jsonFS textFS =
          .exitNonzero ("Words file not found: " ++ resolveWordsFile argv)) := by
  constructor
  · intro argv jsonFS textFS p lines w pr r hp hpe hj ht
    simp [mainFlow, load_words_file, hj, hp, hpe, ht]
  · intro argv jsonFS textFS p hp hj
    simp [mainFlow, load_words_file, hj]

/-- A structured words file whose flat list and generated combinations
would contribute labels, used to show they are discarded. -/
def jsonFS0 : String → Option JsonDoc := fun path =>
  if path = "domain_words.json" then some (.obj ["base"] ["neo"] ["byte"]) else none

/-- A plain word-list file with a blank and mixed-case lines. -/
def textFS0 : String → Option (List String) := fun path =>
  if path = "words.txt" then some ["Hello", "", "WORLD"] else none

/-- C9 witness: with both files present, the proceed outcome carries only
the plain file's normalized labels. -/
theorem positional_words_replace_witness :
    mainFlow ["words.txt"] jsonFS0 textFS0 =
      .proceed (normalizeWords (processPlainLines ["Hello", "", "WORLD"]))
        (parseTldsFile ["words.txt"]).1 :=
  (positional_words_replace).1 ["words.txt"] jsonFS0 textFS0 "words.txt"
    ["Hello", "", "WORLD"] ["base"] ["neo"] ["byte"]
    (by decide) (by decide) (by decide) (by decide)

/-- C10: a structured words file that exists but is not valid JSON (or
whose top level is not an object) makes `load_words_file` raise an error
that nothing catches, so the entry point aborts unhandled instead of
taking the user-visible nonzero-exit path, which fires only for
`FileNotFoundError`. -/
theorem invalid_json_unhandled :
    (∀ argv (jsonFS : String → Option JsonDoc) (textFS : String → Option (List String)),
        jsonFS (resolveWordsFile argv) = some .malformed →
          mainFlow argv jsonFS textFS = .unhandled .jsonDecodeError) ∧
    (∀ argv (jsonFS : String → Option JsonDoc) (textFS : String → Option (List String)),
        jsonFS (resolveWordsFile argv) = some .nonObj →
          mainFlow argv jsonFS textFS = .unhandled .attributeError) ∧
    (∀ argv (jsonFS : String → Option JsonDoc) (textFS : String → Option (List String)) msg,
        mainFlow argv jsonFS textFS = .exitNonzero msg →
          load_words_file (jsonFS (resolveWordsFile argv)) ≠ .error .jsonDecodeError ∧
          load_words_file (jsonFS (resolveWordsFile argv)) ≠ .error .attributeError) := by
  refine ⟨?_, ?_, ?_⟩
  · intro argv jsonFS textFS hj
    simp [mainFlow, load_words_file, hj]
  · intro argv jsonFS textFS hj
    simp [mainFlow, load_words_file, hj]
  · intro argv jsonFS textFS msg h
    rcases mainFlow_exitNonzero_inv argv jsonFS textFS msg h with ⟨hj, _⟩ | ⟨w, pr, r, p, hj, _⟩
    · rw [hj]
      exact ⟨by simp [load_words_file], by simp [load_words_file]⟩
    · rw [hj]
      exact ⟨by simp [load_words_file], by simp [load_words_file]⟩

/-- A file system whose structured words file holds invalid JSON. -/
def jsonFS1 : String → Option JsonDoc := fun path =>
  if path = "domain_words.json" then some .malformed else none

/-- C10 witness: invalid JSON in the default words file aborts unhandled
with the decode error. -/
theorem invalid_json_unhandled_witness :
    mainFlow [] jsonFS1 (fun _ => none) = .unhandled .jsonDecodeError :=
  (invalid_json_unhandled).1 [] jsonFS1 (fun _ => none) (by decide)

end DomainCheck
